import Mathlib

/-
Verification of the_snake.py: a shallow embedding of the game's data model
and operations, with theorems about movement, growth, collision handling,
apple placement, input handling and the main loop.

Randomness in the source (random.choice, random.randint) is modelled by
explicit parameters: an index into the choice list, and a stream of drawn
grid coordinates for the apple's rejection-sampling loop.
-/

namespace TheSnake

/-- Screen width in pixels (SCREEN_WIDTH in the source). -/
def SCREEN_WIDTH : Int := 640

/-- Screen height in pixels (SCREEN_HEIGHT in the source). -/
def SCREEN_HEIGHT : Int := 480

/-- Side of one grid cell in pixels (GRID_SIZE in the source). -/
def GRID_SIZE : Int := 20

/-- Number of grid columns: SCREEN_WIDTH // GRID_SIZE. -/
def GRID_WIDTH : Int := SCREEN_WIDTH / GRID_SIZE

/-- Number of grid rows: SCREEN_HEIGHT // GRID_SIZE. -/
def GRID_HEIGHT : Int := SCREEN_HEIGHT / GRID_SIZE

/-- A pixel position on the screen, a pair of integers as in the source. -/
abbrev Pos := Int × Int

/-- Center of the screen (CENTER_POSITION in the source). -/
def CENTER_POSITION : Pos := (SCREEN_WIDTH / 2, SCREEN_HEIGHT / 2)

/-- The UP unit direction vector. -/
def UP : Pos := (0, -1)

/-- The DOWN unit direction vector. -/
def DOWN : Pos := (0, 1)

/-- The LEFT unit direction vector. -/
def LEFT : Pos := (-1, 0)

/-- The RIGHT unit direction vector. -/
def RIGHT : Pos := (1, 0)

/-- The list [UP, DOWN, LEFT, RIGHT] passed to random.choice in Snake.reset. -/
def fourDirections : List Pos := [UP, DOWN, LEFT, RIGHT]

/-- Models random.choice: picks an element of the list, the random draw
being supplied as an index reduced modulo the list length. -/
def randomChoice (xs : List Pos) (i : Nat) : Pos :=
  xs.getD (i % xs.length) (0, 0)

/-- State of the Snake object: the construction-time GameObject position
(self.position, never mutated after init), the target length, the body
positions head first, the live direction, the staged next direction
(None modelled as Option.none) and the last dropped cell. -/
structure Snake where
  position : Pos
  length : Nat
  positions : List Pos
  direction : Pos
  next_direction : Option Pos
  last : Option Pos
deriving DecidableEq, Repr

/-- Snake.reset: length 1, body [self.position], direction the given one or
a random choice among the four unit vectors, staged direction and last
cleared.  randIdx models the draw random.choice would consume. -/
def Snake.reset (s : Snake) (initial_direction : Option Pos) (randIdx : Nat) : Snake :=
  { s with
    length := 1
    positions := [s.position]
    direction := initial_direction.getD (randomChoice fourDirections randIdx)
    next_direction := none
    last := none }

/-- Snake.get_head_position: self.positions[0].  The default (the
construction position) covers only the empty list, which raises in Python
and never occurs in reachable states. -/
def Snake.get_head_position (s : Snake) : Pos :=
  s.positions.headD s.position

/-- The new head computed inside Snake.move:
((head_x + dir_x * GRID_SIZE) % SCREEN_WIDTH,
 (head_y + dir_y * GRID_SIZE) % SCREEN_HEIGHT). -/
def Snake.newHead (s : Snake) : Pos :=
  ((s.get_head_position.1 + s.direction.1 * GRID_SIZE) % SCREEN_WIDTH,
   (s.get_head_position.2 + s.direction.2 * GRID_SIZE) % SCREEN_HEIGHT)

/-- Snake.move: insert the new head at index 0; if the list is now longer
than the target length, pop the last cell and remember it in self.last,
otherwise set self.last to None. -/
def Snake.move (s : Snake) : Snake :=
  if (s.newHead :: s.positions).length > s.length then
    { s with positions := (s.newHead :: s.positions).dropLast,
             last := (s.newHead :: s.positions).getLast? }
  else
    { s with positions := s.newHead :: s.positions, last := none }

/-- Snake.grow: self.length += 1. -/
def Snake.grow (s : Snake) : Snake :=
  { s with length := s.length + 1 }

/-- Snake.update_direction: commit the staged direction if set and clear
the buffer. -/
def Snake.update_direction (s : Snake) : Snake :=
  match s.next_direction with
  | some d => { s with direction := d, next_direction := none }
  | none => s

/-- A demonstration snake one cell from the right edge, used by witnesses. -/
def demoSnakeC1 : Snake :=
  { position := CENTER_POSITION
    length := 1
    positions := [(620, 0)]
    direction := RIGHT
    next_direction := none
    last := none }

/-- C1: the head position after Snake.move equals componentwise
((previous head x + direction x * GRID_SIZE) mod SCREEN_WIDTH,
 (previous head y + direction y * GRID_SIZE) mod SCREEN_HEIGHT),
so movement wraps toroidally and the head always stays on screen
(no wall death). -/
theorem snake_move_head_wraps (s : Snake) (h : s.positions ≠ []) :
    (s.move).get_head_position =
      ((s.get_head_position.1 + s.direction.1 * GRID_SIZE) % SCREEN_WIDTH,
       (s.get_head_position.2 + s.direction.2 * GRID_SIZE) % SCREEN_HEIGHT) ∧
    0 ≤ (s.move).get_head_position.1 ∧ (s.move).get_head_position.1 < SCREEN_WIDTH ∧
    0 ≤ (s.move).get_head_position.2 ∧ (s.move).get_head_position.2 < SCREEN_HEIGHT := by
  obtain ⟨a, l, hp⟩ : ∃ a l, s.positions = a :: l := by
    cases hq : s.positions with
    | nil => exact absurd hq h
    | cons a l => exact ⟨a, l, rfl⟩
  have hmove : (s.move).get_head_position = s.newHead := by
    unfold Snake.move Snake.get_head_position
    split
    · simp [hp, List.dropLast_cons₂]
    · simp [hp]
  refine ⟨hmove, ?_, ?_, ?_, ?_⟩ <;>
    rw [hmove] <;>
    simp only [Snake.newHead, SCREEN_WIDTH, SCREEN_HEIGHT] <;>
    omega

/-- Witness for C1: a concrete snake one cell from the right edge wraps to
x = 0 on the next move. -/
theorem snake_move_head_wraps_witness :
    demoSnakeC1.positions ≠ [] ∧
    ((demoSnakeC1.move).get_head_position =
      ((demoSnakeC1.get_head_position.1 + demoSnakeC1.direction.1 * GRID_SIZE) % SCREEN_WIDTH,
       (demoSnakeC1.get_head_position.2 + demoSnakeC1.direction.2 * GRID_SIZE) % SCREEN_HEIGHT) ∧
    0 ≤ (demoSnakeC1.move).get_head_position.1 ∧
    (demoSnakeC1.move).get_head_position.1 < SCREEN_WIDTH ∧
    0 ≤ (demoSnakeC1.move).get_head_position.2 ∧
    (demoSnakeC1.move).get_head_position.2 < SCREEN_HEIGHT) :=
  ⟨by decide, snake_move_head_wraps demoSnakeC1 (by decide)⟩

/-- A demonstration snake of length 2 used by the C5 witness: the body is
already at target length, so the next move drops the tail cell. -/
def demoSnakeC5 : Snake :=
  { position := CENTER_POSITION
    length := 2
    positions := [(40, 60), (20, 60)]
    direction := RIGHT
    next_direction := none
    last := none }

/-- C5: Snake.move prepends the new head; when the grown sequence exceeds
the target length exactly the oldest tail cell is removed and remembered in
the last field, otherwise nothing is removed and last is None. -/
theorem snake_move_prepend_trim (s : Snake) (h : s.positions ≠ []) :
    (s.positions.length + 1 > s.length →
      (s.move).positions = s.newHead :: s.positions.dropLast ∧
      (s.move).last = s.positions.getLast?) ∧
    (¬ (s.positions.length + 1 > s.length) →
      (s.move).positions = s.newHead :: s.positions ∧
      (s.move).last = none) := by
  obtain ⟨a, l, hp⟩ : ∃ a l, s.positions = a :: l := by
    cases hq : s.positions with
    | nil => exact absurd hq h
    | cons a l => exact ⟨a, l, rfl⟩
  constructor
  · intro hgt
    unfold Snake.move
    rw [if_pos (by simpa using hgt)]
    constructor
    · show (s.newHead :: s.positions).dropLast = s.newHead :: s.positions.dropLast
      rw [hp]
      exact List.dropLast_cons₂
    · show (s.newHead :: s.positions).getLast? = s.positions.getLast?
      rw [hp]
      exact List.getLast?_cons_cons
  · intro hle
    unfold Snake.move
    rw [if_neg (by simpa using hle)]
    exact ⟨rfl, rfl⟩

/-- Witness for C5: the length-2 demonstration snake drops exactly its
oldest cell (20, 60) on the move and remembers it in last. -/
theorem snake_move_prepend_trim_witness :
    demoSnakeC5.positions ≠ [] ∧
    (demoSnakeC5.positions.length + 1 > demoSnakeC5.length →
      (demoSnakeC5.move).positions = demoSnakeC5.newHead :: demoSnakeC5.positions.dropLast ∧
      (demoSnakeC5.move).last = demoSnakeC5.positions.getLast?) :=
  ⟨by decide, (snake_move_prepend_trim demoSnakeC5 (by decide)).1⟩

/-- Every random choice among the four directions is one of the four. -/
theorem randomChoice_fourDirections_mem (i : Nat) :
    randomChoice fourDirections i ∈ fourDirections := by
  have h4 : i % 4 = 0 ∨ i % 4 = 1 ∨ i % 4 = 2 ∨ i % 4 = 3 := by omega
  have hlen : fourDirections.length = 4 := by rfl
  unfold randomChoice
  rw [hlen]
  rcases h4 with h | h | h | h <;> rw [h] <;> decide

/-- C8: immediately after Snake.reset the length is 1, the body is the
single construction position, the direction is one of the four canonical
unit vectors, and the staged next direction is cleared.  The hypothesis on
the passed direction covers both call sites in the source: reset() from
init and reset(initial_direction=RIGHT) from the main loop. -/
theorem snake_reset_state (s : Snake) (d : Option Pos) (i : Nat)
    (hd : d = none ∨ d ∈ [some UP, some DOWN, some LEFT, some RIGHT]) :
    (s.reset d i).length = 1 ∧
    (s.reset d i).positions = [s.position] ∧
    (s.reset d i).direction ∈ fourDirections ∧
    (s.reset d i).next_direction = none := by
  refine ⟨rfl, rfl, ?_, rfl⟩
  show (d.getD (randomChoice fourDirections i)) ∈ fourDirections
  rcases hd with rfl | hd
  · exact randomChoice_fourDirections_mem i
  · fin_cases hd <;> simp [fourDirections]

/-- Witness for C8: resetting the C1 demonstration snake with no explicit
direction and draw index 2 yields length 1 at the construction position. -/
theorem snake_reset_state_witness :
    ((none : Option Pos) = none ∨
      (none : Option Pos) ∈ [some UP, some DOWN, some LEFT, some RIGHT]) ∧
    ((demoSnakeC1.reset none 2).length = 1 ∧
    (demoSnakeC1.reset none 2).positions = [demoSnakeC1.position] ∧
    (demoSnakeC1.reset none 2).direction ∈ fourDirections ∧
    (demoSnakeC1.reset none 2).next_direction = none) :=
  ⟨Or.inl rfl, snake_reset_state demoSnakeC1 none 2 (Or.inl rfl)⟩

/-- The length invariant of the spec: the body never exceeds the target
length between ticks. -/
abbrev lengthInv (s : Snake) : Prop := s.positions.length ≤ s.length

/-- C9: the body length is at most target length + 1 transiently (the
sequence with the new head inserted) and at most the target length again
once the move completes; the invariant is preserved by reset, move and
grow. -/
theorem snake_length_invariant (s : Snake) :
    (∀ d i, lengthInv (s.reset d i)) ∧
    (lengthInv s →
      (s.newHead :: s.positions).length ≤ s.length + 1 ∧ lengthInv s.move) ∧
    (lengthInv s → lengthInv s.grow) := by
  refine ⟨fun d i => by simp [Snake.reset, lengthInv], fun hinv => ⟨?_, ?_⟩, fun hinv => ?_⟩
  · simpa using Nat.add_le_add_right hinv 1
  · unfold Snake.move lengthInv
    split
    · simpa [List.length_dropLast] using hinv
    · next hle => simpa using Nat.not_lt.mp hle
  · exact Nat.le_succ_of_le hinv

/-- Witness for C9: the length-2 demonstration snake satisfies the
invariant, transiently reaches 3 cells, and satisfies it again after the
move and after a grow. -/
theorem snake_length_invariant_witness :
    lengthInv demoSnakeC5 ∧
    ((demoSnakeC5.newHead :: demoSnakeC5.positions).length ≤ demoSnakeC5.length + 1 ∧
      lengthInv demoSnakeC5.move) ∧
    lengthInv demoSnakeC5.grow :=
  ⟨by decide, (snake_length_invariant demoSnakeC5).2.1 (by decide),
    (snake_length_invariant demoSnakeC5).2.2 (by decide)⟩

/-- Keyboard keys relevant to the game; every other pygame key code is
collapsed into the other constructor with its code. -/
inductive Key where
  | K_UP
  | K_DOWN
  | K_LEFT
  | K_RIGHT
  | K_ESCAPE
  | other (code : Nat)
deriving DecidableEq, BEq, Repr

/-- Pygame events relevant to handle_keys: window close, a key press, and
any other event type (ignored by the source). -/
inductive Event where
  | quit
  | keydown (key : Key)
  | ignored
deriving DecidableEq, BEq, Repr

/-- The DIRECTION_MAP dictionary: (current direction, key) to new
direction, listing only perpendicular turns. -/
def DIRECTION_MAP : List ((Pos × Key) × Pos) :=
  [((LEFT, Key.K_UP), UP), ((RIGHT, Key.K_UP), UP),
   ((UP, Key.K_LEFT), LEFT), ((DOWN, Key.K_LEFT), LEFT),
   ((UP, Key.K_RIGHT), RIGHT), ((DOWN, Key.K_RIGHT), RIGHT),
   ((LEFT, Key.K_DOWN), DOWN), ((RIGHT, Key.K_DOWN), DOWN)]

/-- DIRECTION_MAP.get((direction, key), default): dictionary lookup with a
default value, as used in handle_keys. -/
def directionMapGet (d : Pos) (k : Key) (dflt : Pos) : Pos :=
  (DIRECTION_MAP.lookup (d, k)).getD dflt

/-- Processing of one pygame event inside handle_keys: QUIT and the escape
key terminate the process (modelled as none); any other key press stages
DIRECTION_MAP.get((direction, key), direction) into next_direction. -/
def handleKeyEvent (s : Snake) (e : Event) : Option Snake :=
  match e with
  | Event.quit => none
  | Event.keydown k =>
    if k = Key.K_ESCAPE then none
    else some { s with next_direction := some (directionMapGet s.direction k s.direction) }
  | Event.ignored => some s

/-- handle_keys: fold handleKeyEvent over the polled event list; a quit or
escape aborts the loop and the process. -/
def handle_keys (s : Snake) : List Event → Option Snake
  | [] => some s
  | e :: rest =>
    match handleKeyEvent s e with
    | none => none
    | some s1 => handle_keys s1 rest

/-- The exact opposite of a direction vector. -/
def opposite (d : Pos) : Pos := (-d.1, -d.2)

/-- handleKeyEvent only ever writes the next_direction buffer: all other
fields survive unchanged. -/
theorem handleKeyEvent_fields (s : Snake) (e : Event) (s1 : Snake)
    (h : handleKeyEvent s e = some s1) :
    s1.direction = s.direction ∧ s1.length = s.length ∧
    s1.positions = s.positions ∧ s1.position = s.position ∧ s1.last = s.last := by
  cases e with
  | quit => exact absurd h (by simp [handleKeyEvent])
  | keydown k =>
    simp only [handleKeyEvent] at h
    split at h
    · exact absurd h (by simp)
    · cases h
      exact ⟨rfl, rfl, rfl, rfl, rfl⟩
  | ignored =>
    simp only [handleKeyEvent] at h
    cases h
    exact ⟨rfl, rfl, rfl, rfl, rfl⟩

/-- handle_keys only ever writes the next_direction buffer: the live
direction, lengths and positions survive unchanged. -/
theorem handle_keys_fields (events : List Event) :
    ∀ s s' : Snake, handle_keys s events = some s' →
    s'.direction = s.direction ∧ s'.length = s.length ∧
    s'.positions = s.positions ∧ s'.position = s.position := by
  induction events with
  | nil =>
    intro s s' h
    cases h
    exact ⟨rfl, rfl, rfl, rfl⟩
  | cons e rest ih =>
    intro s s' h
    unfold handle_keys at h
    cases he : handleKeyEvent s e with
    | none => rw [he] at h; exact absurd h (by simp)
    | some s1 =>
      rw [he] at h
      obtain ⟨h1, h2, h3, h4, _⟩ := handleKeyEvent_fields s e s1 he
      obtain ⟨g1, g2, g3, g4⟩ := ih s1 s' h
      exact ⟨g1.trans h1, g2.trans h2, g3.trans h3, g4.trans h4⟩

/-- Snake.move never changes the target length, the direction, the staged
direction or the construction position. -/
theorem snake_move_fields (s : Snake) :
    (s.move).length = s.length ∧ (s.move).direction = s.direction ∧
    (s.move).next_direction = s.next_direction ∧ (s.move).position = s.position := by
  unfold Snake.move
  split <;> exact ⟨rfl, rfl, rfl, rfl⟩

/-- Snake.update_direction commits the staged buffer into the live
direction, clears the buffer and changes nothing else. -/
theorem snake_update_direction_fields (s : Snake) :
    (s.update_direction).length = s.length ∧
    (s.update_direction).positions = s.positions ∧
    (s.update_direction).position = s.position ∧
    (s.update_direction).next_direction = none ∧
    (s.update_direction).direction = s.next_direction.getD s.direction := by
  cases hn : s.next_direction with
  | none =>
    unfold Snake.update_direction
    rw [hn]
    exact ⟨rfl, rfl, rfl, hn, rfl⟩
  | some d =>
    unfold Snake.update_direction
    rw [hn]
    exact ⟨rfl, rfl, rfl, rfl, rfl⟩

/-- C6: key presses only stage a direction into the next_direction buffer
and never touch the live direction; the live direction changes exactly at
the per-tick update step, taking the single staged value (or staying put),
the buffer is cleared there, and the move itself keeps the committed
direction, so at most one turn is applied per move. -/
theorem direction_staged_not_midtick (s : Snake) (events : List Event) (s' : Snake)
    (h : handle_keys s events = some s') :
    s'.direction = s.direction ∧
    (s'.update_direction).direction = s'.next_direction.getD s.direction ∧
    (s'.update_direction).next_direction = none ∧
    ((s'.update_direction).move).direction = (s'.update_direction).direction := by
  have h1 := (handle_keys_fields events s s' h).1
  have hu := snake_update_direction_fields s'
  refine ⟨h1, ?_, hu.2.2.2.1, (snake_move_fields s'.update_direction).2.1⟩
  rw [hu.2.2.2.2, h1]

/-- The staged snake produced by pressing the up arrow while the C5
demonstration snake moves right. -/
def demoSnakeC6 : Snake :=
  { position := CENTER_POSITION
    length := 2
    positions := [(40, 60), (20, 60)]
    direction := RIGHT
    next_direction := some UP
    last := none }

/-- Witness for C6: pressing the up arrow while moving right stages UP
without touching the live direction; the update step commits it. -/
theorem direction_staged_not_midtick_witness :
    handle_keys demoSnakeC5 [Event.keydown Key.K_UP] = some demoSnakeC6 ∧
    (demoSnakeC6.direction = demoSnakeC5.direction ∧
    (demoSnakeC6.update_direction).direction = demoSnakeC6.next_direction.getD demoSnakeC5.direction ∧
    (demoSnakeC6.update_direction).next_direction = none ∧
    ((demoSnakeC6.update_direction).move).direction = (demoSnakeC6.update_direction).direction) :=
  ⟨by decide,
    direction_staged_not_midtick demoSnakeC5 [Event.keydown Key.K_UP] demoSnakeC6 (by decide)⟩

/-- C7: for a current direction among the four unit vectors, the direction
staged by handle_keys is never the exact opposite of the current one: the
DIRECTION_MAP lookup yields only perpendicular turns (dot product zero with
the current direction), and a key outside the map falls back to the current
direction itself. -/
theorem direction_map_no_reversal (d : Pos) (k : Key) (hd : d ∈ fourDirections) :
    directionMapGet d k d ≠ opposite d ∧
    (DIRECTION_MAP.lookup (d, k) = none → directionMapGet d k d = d) ∧
    ((DIRECTION_MAP.lookup (d, k)).all fun v => d.1 * v.1 + d.2 * v.2 == 0) = true := by
  fin_cases hd <;> cases k <;>
    first
    | decide
    | exact ⟨show ¬ UP = opposite UP by decide, fun _ => rfl, rfl⟩
    | exact ⟨show ¬ DOWN = opposite DOWN by decide, fun _ => rfl, rfl⟩
    | exact ⟨show ¬ LEFT = opposite LEFT by decide, fun _ => rfl, rfl⟩
    | exact ⟨show ¬ RIGHT = opposite RIGHT by decide, fun _ => rfl, rfl⟩

/-- Witness for C7: pressing the left arrow while moving up stages LEFT,
which is perpendicular to UP and not its opposite. -/
theorem direction_map_no_reversal_witness :
    UP ∈ fourDirections ∧
    (directionMapGet UP Key.K_LEFT UP ≠ opposite UP ∧
    (DIRECTION_MAP.lookup (UP, Key.K_LEFT) = none → directionMapGet UP Key.K_LEFT UP = UP) ∧
    ((DIRECTION_MAP.lookup (UP, Key.K_LEFT)).all fun v => UP.1 * v.1 + UP.2 * v.2 == 0) = true) :=
  ⟨by decide, direction_map_no_reversal UP Key.K_LEFT (by decide)⟩

/-- State of the Apple object: just its position. -/
structure Apple where
  position : Pos
deriving DecidableEq, Repr

/-- Apple.randomize_position: rejection sampling.  Each draw models one
pair of random.randint(0, GRID_WIDTH - 1) and random.randint(0,
GRID_HEIGHT - 1) results, scaled by GRID_SIZE; the first scaled cell not
in the occupied list is kept.  none models exhausting the supplied draw
stream, i.e. a run of the while loop that has not yet terminated. -/
def randomize_position (occupied : List Pos) : List (Int × Int) → Option Pos
  | [] => none
  | (rx, ry) :: rest =>
    if (rx * GRID_SIZE, ry * GRID_SIZE) ∉ occupied then
      some (rx * GRID_SIZE, ry * GRID_SIZE)
    else
      randomize_position occupied rest

/-- A position is a grid-aligned cell on screen: both coordinates are
multiples of GRID_SIZE and within the screen bounds. -/
abbrev gridAligned (p : Pos) : Prop :=
  p.1 % GRID_SIZE = 0 ∧ 0 ≤ p.1 ∧ p.1 < SCREEN_WIDTH ∧
  p.2 % GRID_SIZE = 0 ∧ 0 ≤ p.2 ∧ p.2 < SCREEN_HEIGHT

/-- Draws that random.randint(0, GRID_WIDTH - 1) and random.randint(0,
GRID_HEIGHT - 1) can actually produce. -/
abbrev drawsInRange (draws : List (Int × Int)) : Prop :=
  ∀ d ∈ draws, 0 ≤ d.1 ∧ d.1 < GRID_WIDTH ∧ 0 ≤ d.2 ∧ d.2 < GRID_HEIGHT

/-- Whatever randomize_position returns was drawn outside the occupied
list. -/
theorem randomize_position_not_occupied (occupied : List Pos) :
    ∀ (draws : List (Int × Int)) (p : Pos),
    randomize_position occupied draws = some p → p ∉ occupied := by
  intro draws
  induction draws with
  | nil => intro p h; exact absurd h (by simp [randomize_position])
  | cons d rest ih =>
    intro p h
    obtain ⟨rx, ry⟩ := d
    unfold randomize_position at h
    split at h
    · next hnot => cases h; exact hnot
    · exact ih p h

/-- Whatever randomize_position returns from in-range draws is a
grid-aligned cell. -/
theorem randomize_position_aligned (occupied : List Pos) :
    ∀ (draws : List (Int × Int)) (p : Pos), drawsInRange draws →
    randomize_position occupied draws = some p → gridAligned p := by
  intro draws
  induction draws with
  | nil => intro p _ h; exact absurd h (by simp [randomize_position])
  | cons d rest ih =>
    intro p hrange h
    obtain ⟨rx, ry⟩ := d
    obtain ⟨hx0, hx1, hy0, hy1⟩ := hrange (rx, ry) (List.mem_cons_self _ _)
    unfold randomize_position at h
    split at h
    · cases h
      refine ⟨?_, ?_, ?_, ?_, ?_, ?_⟩ <;>
        simp only [GRID_SIZE, SCREEN_WIDTH, SCREEN_HEIGHT] <;>
        simp only [GRID_WIDTH, GRID_HEIGHT, SCREEN_WIDTH, SCREEN_HEIGHT, GRID_SIZE] at hx1 hy1 <;>
        omega
    · exact ih p (fun q hq => hrange q (List.mem_cons_of_mem _ hq)) h

/-- One tick worth of inputs for the main loop: the polled event list, the
index random.choice would consume on a reset, and the randint draw stream
for apple repositioning. -/
structure TickInput where
  events : List Event
  dirIdx : Nat
  appleDraws : List (Int × Int)
deriving DecidableEq, Repr

/-- The mutable state of main: the snake and the apple. -/
structure GameState where
  snake : Snake
  apple : Apple
deriving DecidableEq, Repr

/-- The snake after the per-tick handle_keys, update_direction and move
steps of main, before the collision and apple checks; none when a quit or
escape event ends the process. -/
def postMove (g : GameState) (i : TickInput) : Option Snake :=
  match handle_keys g.snake i.events with
  | none => none
  | some s0 => some (s0.update_direction.move)

/-- One iteration of the main loop body: handle keys, commit the staged
direction, move, then either reset on self-collision (with
initial_direction=RIGHT as in the source), or grow and reposition the
apple when the head reaches it, or leave the rest unchanged.  none models
process exit (quit or escape) or an apple rejection loop that has not yet
terminated on the supplied draws. -/
def tick (g : GameState) (i : TickInput) : Option GameState :=
  match handle_keys g.snake i.events with
  | none => none
  | some s0 =>
    if (s0.update_direction.move).get_head_position ∈ (s0.update_direction.move).positions.tail then
      some { g with snake := (s0.update_direction.move).reset (some RIGHT) i.dirIdx }
    else if (s0.update_direction.move).get_head_position = g.apple.position then
      match randomize_position ((s0.update_direction.move).grow).positions i.appleDraws with
      | some p => some { snake := (s0.update_direction.move).grow, apple := { position := p } }
      | none => none
    else
      some { g with snake := s0.update_direction.move }

/-- C3: a terminating run of Apple.randomize_position returns a
grid-aligned cell outside the occupied list; in particular, after an
apple-eating tick the apple no longer sits on any snake cell. -/
theorem apple_randomize_avoids_snake :
    (∀ (occupied : List Pos) (draws : List (Int × Int)) (p : Pos),
      randomize_position occupied draws = some p → p ∉ occupied) ∧
    (∀ (occupied : List Pos) (draws : List (Int × Int)) (p : Pos), drawsInRange draws →
      randomize_position occupied draws = some p → gridAligned p) ∧
    (∀ (g : GameState) (i : TickInput) (g' : GameState) (s2 : Snake),
      tick g i = some g' → postMove g i = some s2 →
      s2.get_head_position ∉ s2.positions.tail →
      s2.get_head_position = g.apple.position →
      g'.apple.position ∉ g'.snake.positions) := by
  refine ⟨randomize_position_not_occupied, randomize_position_aligned, ?_⟩
  intro g i g' s2 ht hpm hnc happle
  cases hk : handle_keys g.snake i.events with
  | none =>
    simp only [postMove, hk] at hpm
    exact Option.noConfusion hpm
  | some s0 =>
    have hs2 : s0.update_direction.move = s2 := by
      simp only [postMove, hk, Option.some.injEq] at hpm
      exact hpm
    simp only [tick, hk, hs2] at ht
    rw [if_neg hnc, if_pos happle] at ht
    cases hr : randomize_position (s2.grow).positions i.appleDraws with
    | none => rw [hr] at ht; cases ht
    | some p =>
      rw [hr] at ht
      injection ht with ht'
      subst ht'
      exact randomize_position_not_occupied (s2.grow).positions i.appleDraws p hr

/-- A fresh snake one cell left of the apple, about to eat it. -/
def demoSnakeC4 : Snake :=
  { position := (300, 240)
    length := 1
    positions := [(300, 240)]
    direction := RIGHT
    next_direction := none
    last := none }

/-- The game state in which the next move eats the apple. -/
def demoGameC4 : GameState :=
  { snake := demoSnakeC4, apple := { position := (320, 240) } }

/-- Inputs for the eating tick: no events, one apple draw at cell (0, 0). -/
def demoInputC4 : TickInput :=
  { events := [], dirIdx := 0, appleDraws := [(0, 0)] }

/-- The demonstration snake after its move onto the apple cell. -/
def demoSnakeC4moved : Snake :=
  { position := (300, 240)
    length := 1
    positions := [(320, 240)]
    direction := RIGHT
    next_direction := none
    last := some (300, 240) }

/-- The game state after the eating tick: snake grown to target length 2,
apple repositioned to the drawn cell (0, 0). -/
def demoGameC4' : GameState :=
  { snake :=
    { position := (300, 240)
      length := 2
      positions := [(320, 240)]
      direction := RIGHT
      next_direction := none
      last := some (300, 240) }
    apple := { position := (0, 0) } }

/-- Witness for C3: a concrete rejection-sampling run skips the occupied
cell (0, 0) and lands on (20, 0); a concrete eating tick leaves the apple
off the snake. -/
theorem apple_randomize_avoids_snake_witness :
    randomize_position [(0, 0)] [(0, 0), (1, 0)] = some (20, 0) ∧
    ((20, 0) : Pos) ∉ ([(0, 0)] : List Pos) ∧
    drawsInRange [(0, 0), (1, 0)] ∧ gridAligned (20, 0) ∧
    tick demoGameC4 demoInputC4 = some demoGameC4' ∧
    demoGameC4'.apple.position ∉ demoGameC4'.snake.positions :=
  ⟨by decide,
    apple_randomize_avoids_snake.1 [(0, 0)] [(0, 0), (1, 0)] (20, 0) (by decide),
    by decide,
    apple_randomize_avoids_snake.2.1 [(0, 0)] [(0, 0), (1, 0)] (20, 0) (by decide) (by decide),
    by decide,
    apple_randomize_avoids_snake.2.2 demoGameC4 demoInputC4 demoGameC4' demoSnakeC4moved
      (by decide) (by decide) (by decide) (by decide)⟩

/-- A snake of length 3 in the self-collision configuration the spec's
reversal scenario describes: moving right with its body cells ahead of
the head. -/
def demoSnakeC2 : Snake :=
  { position := CENTER_POSITION
    length := 3
    positions := [(0, 0), (20, 0), (40, 0)]
    direction := RIGHT
    next_direction := none
    last := none }

/-- The game state about to self-collide. -/
def demoGameC2 : GameState :=
  { snake := demoSnakeC2, apple := { position := (600, 460) } }

/-- Inputs for the collision tick: no events; the direction draw index 0,
whose random choice would be UP. -/
def demoInputC2 : TickInput :=
  { events := [], dirIdx := 0, appleDraws := [] }

/-- The demonstration snake after the colliding move: the new head
(20, 0) reappears in the remaining body. -/
def demoSnakeC2moved : Snake :=
  { position := CENTER_POSITION
    length := 3
    positions := [(20, 0), (0, 0), (20, 0)]
    direction := RIGHT
    next_direction := none
    last := some (40, 0) }

/-- The game state after the collision tick: snake reset to length 1 at
the construction position, direction RIGHT. -/
def demoGameC2' : GameState :=
  { snake :=
    { position := CENTER_POSITION
      length := 1
      positions := [CENTER_POSITION]
      direction := RIGHT
      next_direction := none
      last := none }
    apple := { position := (600, 460) } }

/-- C2 counterexample: on a self-collision tick the main loop calls
Snake.reset with initial_direction=RIGHT, so the post-reset direction is
the fixed RIGHT and not the fresh random choice (which the supplied draw
index 0 would have made UP). -/
theorem collision_reset_direction_not_random :
    postMove demoGameC2 demoInputC2 = some demoSnakeC2moved ∧
    demoSnakeC2moved.get_head_position ∈ demoSnakeC2moved.positions.tail ∧
    tick demoGameC2 demoInputC2 = some demoGameC2' ∧
    demoGameC2'.snake.direction = RIGHT ∧
    randomChoice fourDirections demoInputC2.dirIdx = UP ∧
    demoGameC2'.snake.direction ≠ randomChoice fourDirections demoInputC2.dirIdx := by
  decide

/-- C2 as amended: when the head after a move reappears in the remaining
body, the tick resets the snake to length 1 at the construction position
with the fixed direction RIGHT (not a random one) and a cleared staged
direction, so within the collision tick the length is exactly 1. -/
theorem collision_resets_to_length_one (g : GameState) (i : TickInput)
    (g' : GameState) (s2 : Snake)
    (hpm : postMove g i = some s2)
    (hcol : s2.get_head_position ∈ s2.positions.tail)
    (ht : tick g i = some g') :
    g'.snake.length = 1 ∧ g'.snake.positions = [g.snake.position] ∧
    g'.snake.direction = RIGHT ∧ g'.snake.next_direction = none := by
  cases hk : handle_keys g.snake i.events with
  | none =>
    simp only [postMove, hk] at hpm
    exact Option.noConfusion hpm
  | some s0 =>
    have hs2 : s0.update_direction.move = s2 := by
      simp only [postMove, hk, Option.some.injEq] at hpm
      exact hpm
    have hpos : s2.position = g.snake.position := by
      rw [← hs2, (snake_move_fields _).2.2.2, (snake_update_direction_fields s0).2.2.1,
        (handle_keys_fields i.events g.snake s0 hk).2.2.2]
    simp only [tick, hk, hs2] at ht
    rw [if_pos hcol] at ht
    injection ht with ht'
    subst ht'
    exact ⟨rfl, by rw [show (s2.reset (some RIGHT) i.dirIdx).positions = [s2.position] from rfl, hpos],
      rfl, rfl⟩

/-- Witness for the amended C2: the concrete collision tick ends with a
length-1 snake at the construction position heading RIGHT. -/
theorem collision_resets_to_length_one_witness :
    demoGameC2'.snake.length = 1 ∧
    demoGameC2'.snake.positions = [demoGameC2.snake.position] ∧
    demoGameC2'.snake.direction = RIGHT ∧
    demoGameC2'.snake.next_direction = none :=
  collision_resets_to_length_one demoGameC2 demoInputC2 demoGameC2' demoSnakeC2moved
    (by decide) (by decide) (by decide)

/-- A tick is a self-collision tick when the moved head reappears in the
remaining body, which is the reset condition of the main loop. -/
def collides (g : GameState) (i : TickInput) : Bool :=
  match postMove g i with
  | some s2 => decide (s2.get_head_position ∈ s2.positions.tail)
  | none => false

/-- A tick is an apple-eating tick when there is no self-collision and the
moved head sits on the apple, which is the grow condition of the main
loop. -/
def eats (g : GameState) (i : TickInput) : Bool :=
  match postMove g i with
  | some s2 =>
    !(decide (s2.get_head_position ∈ s2.positions.tail)) &&
      decide (s2.get_head_position = g.apple.position)
  | none => false

/-- Repeated ticks of the main loop over a list of per-tick inputs. -/
def run (g : GameState) : List TickInput → Option GameState
  | [] => some g
  | i :: rest =>
    match tick g i with
    | none => none
    | some g' => run g' rest

/-- Number of apple-eating ticks along a run. -/
def countEats (g : GameState) : List TickInput → Nat
  | [] => 0
  | i :: rest =>
    match tick g i with
    | none => 0
    | some g' => (if eats g i then 1 else 0) + countEats g' rest

/-- No tick along the run is a self-collision tick. -/
def collisionFree (g : GameState) : List TickInput → Bool
  | [] => true
  | i :: rest =>
    match tick g i with
    | none => !(collides g i)
    | some g' => !(collides g i) && collisionFree g' rest

/-- On a collision-free tick the target length grows by one exactly on an
apple-eating tick and is otherwise unchanged. -/
theorem tick_snake_length (g : GameState) (i : TickInput) (g' : GameState)
    (ht : tick g i = some g') (hnc : collides g i = false) :
    g'.snake.length = g.snake.length + (if eats g i then 1 else 0) := by
  cases hk : handle_keys g.snake i.events with
  | none =>
    simp only [tick, hk] at ht
    exact Option.noConfusion ht
  | some s0 =>
    have hpm : postMove g i = some (s0.update_direction.move) := by
      simp [postMove, hk]
    have hlen : (s0.update_direction.move).length = g.snake.length := by
      rw [(snake_move_fields _).1, (snake_update_direction_fields s0).1,
        (handle_keys_fields i.events g.snake s0 hk).2.1]
    have hcol : ¬ ((s0.update_direction.move).get_head_position ∈
        (s0.update_direction.move).positions.tail) := by
      simp only [collides, hpm] at hnc
      exact of_decide_eq_false hnc
    simp only [tick, hk] at ht
    rw [if_neg hcol] at ht
    by_cases happle :
        (s0.update_direction.move).get_head_position = g.apple.position
    · rw [if_pos happle] at ht
      have heats : eats g i = true := by
        simp only [eats, hpm, Bool.and_eq_true, Bool.not_eq_true']
        exact ⟨decide_eq_false hcol, decide_eq_true happle⟩
      rw [heats]
      cases hr : randomize_position ((s0.update_direction.move).grow).positions i.appleDraws with
      | none => rw [hr] at ht; cases ht
      | some p =>
        rw [hr] at ht
        injection ht with ht'
        subst ht'
        show ((s0.update_direction.move).grow).length = g.snake.length + 1
        rw [show ((s0.update_direction.move).grow).length =
          (s0.update_direction.move).length + 1 from rfl, hlen]
    · rw [if_neg happle] at ht
      have heats : eats g i = false := by
        simp only [eats, hpm]
        simp [happle]
      rw [heats]
      injection ht with ht'
      subst ht'
      simpa using hlen

/-- Along a collision-free run the target length grows by exactly the
number of apple-eating ticks. -/
theorem run_snake_length (inputs : List TickInput) :
    ∀ g g' : GameState, run g inputs = some g' → collisionFree g inputs = true →
    g'.snake.length = g.snake.length + countEats g inputs := by
  induction inputs with
  | nil =>
    intro g g' h _
    simp only [run] at h
    injection h with h'
    subst h'
    simp [countEats]
  | cons i rest ih =>
    intro g g' h hcf
    cases ht : tick g i with
    | none =>
      simp only [run, ht] at h
      exact Option.noConfusion h
    | some g1 =>
      simp only [run, ht] at h
      simp only [collisionFree, ht, Bool.and_eq_true, Bool.not_eq_true'] at hcf
      have hl1 := tick_snake_length g i g1 ht hcf.1
      have hl2 := ih g1 g' h hcf.2
      simp only [countEats, ht]
      cases heats : eats g i <;> simp only [heats, if_true, if_false] at hl1 ⊢ <;> omega

/-- C4: Snake.grow increments the target length by one and changes nothing
else; consequently, starting from a fresh snake of length 1, after N
apple-eating ticks with no intervening self-collision the target length is
N + 1. -/
theorem snake_growth_counts_apples :
    (∀ s : Snake, s.grow.length = s.length + 1 ∧ s.grow.positions = s.positions ∧
      s.grow.direction = s.direction ∧ s.grow.next_direction = s.next_direction ∧
      s.grow.last = s.last ∧ s.grow.position = s.position) ∧
    (∀ (g : GameState) (inputs : List TickInput) (g' : GameState),
      g.snake.length = 1 → run g inputs = some g' → collisionFree g inputs = true →
      g'.snake.length = countEats g inputs + 1) := by
  refine ⟨fun s => ⟨rfl, rfl, rfl, rfl, rfl, rfl⟩, fun g inputs g' h1 hr hcf => ?_⟩
  rw [run_snake_length inputs g g' hr hcf, h1, Nat.add_comm]

/-- Witness for C4: a concrete one-tick run in which the fresh snake eats
the apple and ends with target length 2 = 1 eat + 1. -/
theorem snake_growth_counts_apples_witness :
    (demoSnakeC4.grow.length = demoSnakeC4.length + 1 ∧
      demoSnakeC4.grow.positions = demoSnakeC4.positions ∧
      demoSnakeC4.grow.direction = demoSnakeC4.direction ∧
      demoSnakeC4.grow.next_direction = demoSnakeC4.next_direction ∧
      demoSnakeC4.grow.last = demoSnakeC4.last ∧
      demoSnakeC4.grow.position = demoSnakeC4.position) ∧
    demoGameC4.snake.length = 1 ∧
    run demoGameC4 [demoInputC4] = some demoGameC4' ∧
    collisionFree demoGameC4 [demoInputC4] = true ∧
    countEats demoGameC4 [demoInputC4] = 1 ∧
    demoGameC4'.snake.length = countEats demoGameC4 [demoInputC4] + 1 :=
  ⟨snake_growth_counts_apples.1 demoSnakeC4, by decide, by decide, by decide, by decide,
    snake_growth_counts_apples.2 demoGameC4 [demoInputC4] demoGameC4'
      (by decide) (by decide) (by decide)⟩

/-- The max_iterations bound of main. -/
def max_iterations : Nat := 1000

/-- The main loop with its remaining iteration count made explicit: with r
iterations left to run, each pass polls the inputs for the current
iteration value, executes one tick, and recurses with iteration + 1; the
returned number counts executed loop passes.  none models a quit or escape
exit (or a tick whose apple draws ran out). -/
def mainLoopAux : Nat → GameState → (Nat → TickInput) → Nat → Option (GameState × Nat)
  | 0, g, _, _ => some (g, 0)
  | r + 1, g, inputs, iteration =>
    match tick g (inputs iteration) with
    | none => none
    | some g' =>
      match mainLoopAux r g' inputs (iteration + 1) with
      | none => none
      | some (gf, n) => some (gf, n + 1)

/-- The loop of main: while iteration <= max_iterations, starting at
iteration = 0, runs its body once per iteration value 0..max_iterations,
i.e. max_iterations + 1 times. -/
def mainLoop (g : GameState) (inputs : Nat → TickInput) : Option (GameState × Nat) :=
  mainLoopAux (max_iterations + 1) g inputs 0

/-- A completed mainLoopAux run executes exactly its remaining iteration
count. -/
theorem mainLoopAux_count (r : Nat) :
    ∀ (g : GameState) (inputs : Nat → TickInput) (iteration : Nat)
      (gf : GameState) (n : Nat),
    mainLoopAux r g inputs iteration = some (gf, n) → n = r := by
  induction r with
  | zero =>
    intro g inputs it gf n h
    simp only [mainLoopAux] at h
    injection h with h1
    injection h1 with h2 h3
    omega
  | succ r ih =>
    intro g inputs it gf n h
    cases ht : tick g (inputs it) with
    | none =>
      simp only [mainLoopAux, ht] at h
      exact Option.noConfusion h
    | some g1 =>
      simp only [mainLoopAux, ht] at h
      cases ha : mainLoopAux r g1 inputs (it + 1) with
      | none => rw [ha] at h; cases h
      | some p =>
        obtain ⟨gf0, n0⟩ := p
        rw [ha] at h
        injection h with h1
        injection h1 with h2 h3
        have := ih g1 inputs (it + 1) gf0 n0 ha
        omega

/-- C10: a run of the main loop that completes (no quit or escape event
ends the process early) executes exactly max_iterations + 1 = 1001
iterations, for the iteration counter values 0 through 1000, and then
main returns. -/
theorem main_loop_runs_1001_iterations :
    (∀ (r : Nat) (g : GameState) (inputs : Nat → TickInput) (iteration : Nat)
      (gf : GameState) (n : Nat),
      mainLoopAux r g inputs iteration = some (gf, n) → n = r) ∧
    (∀ (g : GameState) (inputs : Nat → TickInput) (gf : GameState) (n : Nat),
      mainLoop g inputs = some (gf, n) → n = 1001) ∧
    max_iterations + 1 = 1001 := by
  refine ⟨mainLoopAux_count, fun g inputs gf n h => ?_, rfl⟩
  exact mainLoopAux_count (max_iterations + 1) g inputs 0 gf n h

/-- A game state whose next ticks neither collide nor eat: the snake moves
right, away from the apple in the corner. -/
def demoGameC10 : GameState :=
  { snake := demoSnakeC4, apple := { position := (0, 0) } }

/-- Input stream for the C10 witness: no events, no draws needed. -/
def demoInputsC10 : Nat → TickInput :=
  fun _ => { events := [], dirIdx := 0, appleDraws := [] }

/-- The state after one quiet tick from demoGameC10. -/
def demoGameC10' : GameState :=
  { snake := demoSnakeC4moved, apple := { position := (0, 0) } }

/-- Witness for C10: a one-iteration instance of the counting lemma,
evaluated on a concrete tick. -/
theorem main_loop_runs_1001_iterations_witness :
    mainLoopAux 1 demoGameC10 demoInputsC10 0 = some (demoGameC10', 1) ∧ (1 : Nat) = 1 :=
  ⟨by decide,
    main_loop_runs_1001_iterations.1 1 demoGameC10 demoInputsC10 0 demoGameC10' 1 (by decide)⟩

end TheSnake
